import Mathlib

/-
Verification of the games-search pipeline (catalog fetch, AI enrichment,
export strategies) against its specification.  The Python sources are
shallowly embedded: pure functions become Lean functions, external
boundaries (HTTP, json.loads, random.randint, the OpenAI client) become
explicit parameters, and exceptions become Except / Option results.
-/

namespace GamesSearch

/-! ## Python string primitives -/

/-- Python substring membership `needle in hay`, on char lists:
`needle` occurs as a contiguous sublist of the list. -/
def listContainsSub (needle : List Char) : List Char → Bool
  | [] => needle.isEmpty
  | c :: rest => needle.isPrefixOf (c :: rest) || listContainsSub needle rest

/-- Python `needle in hay` on strings (substring containment). -/
def strContainsSub (hay needle : String) : Bool :=
  listContainsSub needle.toList hay.toList

/-- Python `s.lower()` (ASCII case folding, as the sources use it). -/
def pyLower (s : String) : String :=
  List.asString (s.toList.map Char.toLower)

/-- Python `s.upper()` (ASCII case folding, as the sources use it). -/
def pyUpper (s : String) : String :=
  List.asString (s.toList.map Char.toUpper)

/-- Python `s.strip()`: drop leading and trailing whitespace. -/
def pyStripList (l : List Char) : List Char :=
  ((l.dropWhile Char.isWhitespace).reverse.dropWhile Char.isWhitespace).reverse

/-- Python `s.strip()` on strings. -/
def pyStrip (s : String) : String :=
  List.asString (pyStripList s.toList)

/-- Python `p.startswith(q)` — here written `strStartsWith q p`. -/
def strStartsWith (q p : String) : Bool :=
  q.toList.isPrefixOf p.toList

/-- Python `sep.join(parts)`. -/
def strJoinList (sep : List Char) : List String → List Char
  | [] => []
  | [x] => x.toList
  | x :: y :: rest => x.toList ++ sep ++ strJoinList sep (y :: rest)

/-- Python `sep.join(parts)` on strings. -/
def strJoin (sep : String) (parts : List String) : String :=
  List.asString (strJoinList sep.toList parts)

/-- Python `str.splitlines` restricted to the newline conventions the
sources can meet (`\n`, `\r\n`, `\r`): every terminator ends a line, and a
final unterminated segment is a line only when nonempty. -/
def splitlinesAux (cur : List Char) : List Char → List (List Char)
  | [] => if cur.isEmpty then [] else [cur.reverse]
  | '\r' :: '\n' :: rest => cur.reverse :: splitlinesAux [] rest
  | '\n' :: rest => cur.reverse :: splitlinesAux [] rest
  | '\r' :: rest => cur.reverse :: splitlinesAux [] rest
  | c :: rest => splitlinesAux (c :: cur) rest

/-- Python `content.splitlines()`. -/
def splitlines (s : String) : List String :=
  (splitlinesAux [] s.toList).map List.asString

/-- Python `line.partition(":")[2]`: everything after the first colon,
empty when there is no colon. -/
def afterFirstColon : List Char → List Char
  | [] => []
  | ':' :: rest => rest
  | _ :: rest => afterFirstColon rest

/-- Numeric value of a list of decimal digit characters. -/
def digitsToNat (l : List Char) : Nat :=
  l.foldl (fun a c => a * 10 + (c.toNat - '0'.toNat)) 0

/-- Python `s.strip().isdigit()` used by the legacy-parse fallback:
true iff the stripped line is nonempty and all digits. -/
def strippedIsDigit (s : String) : Bool :=
  let t := pyStripList s.toList
  !t.isEmpty && t.all Char.isDigit

/-- Python `int(s)` on a string (ASCII decimal with optional sign and
surrounding whitespace; `none` models the `ValueError` it raises). -/
def pyIntOfString (s : String) : Option Int :=
  let t := pyStripList s.toList
  let signed : Int × List Char :=
    match t with
    | '+' :: rest => (1, rest)
    | '-' :: rest => (-1, rest)
    | l => (1, l)
  if !signed.2.isEmpty && signed.2.all Char.isDigit then
    some (signed.1 * (digitsToNat signed.2 : Int))
  else
    none

/-! ## Game model (src/models/game.py) -/

structure Game where
  title : String
  platforms : List String
  release_date : Option String
  genres : List String
  ai_review : Option String := none
  ai_rating : Option Int := none
deriving Repr, DecidableEq

/-- Python `x or "N/A"` on an optional string (None and the empty string
are both falsy). -/
def orNA : Option String → String
  | none => "N/A"
  | some s => if s = "" then "N/A" else s

namespace Game

/-- Source `platforms_str`: platforms joined by ", ". -/
def platforms_str (g : Game) : String :=
  strJoin ", " g.platforms

/-- Source `genres_str`: genres joined by ", ". -/
def genres_str (g : Game) : String :=
  strJoin ", " g.genres

/-- Source `ai_rating_str`: `f"{rating}/10"` when the rating is truthy (non-None
and nonzero), else "N/A". -/
def ai_rating_str (g : Game) : String :=
  match g.ai_rating with
  | none => "N/A"
  | some r => if r ≠ 0 then toString r ++ "/10" else "N/A"

/-- Source `to_dict`: the projected field map used by every exporter, as an
ordered association list (Python dicts preserve insertion order).  The
review/rating keys are appended only when `ai_review` is not None. -/
def to_dict (g : Game) : List (String × String) :=
  let result := [("Title", g.title),
                 ("Platforms", g.platforms_str),
                 ("Release Date", orNA g.release_date),
                 ("Genres", g.genres_str)]
  match g.ai_review with
  | none => result
  | some rv =>
      result ++ [("AI Review", if rv = "" then "N/A" else rv),
                 ("AI Rating", g.ai_rating_str)]

/-- Source `matches_platform_filter`: a falsy (None or empty) filter matches
everything; otherwise some platform name must contain some filter token
case-insensitively as a substring. -/
def matches_platform_filter (g : Game) (platform_filter : Option (List String)) : Bool :=
  match platform_filter with
  | none => true
  | some [] => true
  | some fs =>
      g.platforms.any fun p => fs.any fun f => strContainsSub (pyLower p) (pyLower f)

end Game

/-! ## Catalog fetcher (src/services/rawg_service.py) -/

/-- Python `calendar.isleap(year)`. -/
def isleap (year : Nat) : Bool :=
  year % 4 == 0 && (year % 100 != 0 || year % 400 == 0)

/-- Python `calendar.monthrange(year, month)[1]`: the number of days in
the month. -/
def monthrange_days (year month : Nat) : Nat :=
  if month = 2 then (if isleap year then 29 else 28)
  else if month = 4 ∨ month = 6 ∨ month = 9 ∨ month = 11 then 30
  else 31

/-- Python `f"{month:02d}"` for the month field (zero-padded to width 2). -/
def pad2 (n : Nat) : String :=
  if n < 10 then "0" ++ toString n else toString n

/-- One raw upstream item, already projected to the fields the parser
reads: `name` (defaulted to "" upstream), `released`, the platform name
list (`none` models a `platforms` field that is absent or not a list) and
the genre name list. -/
structure RawGame where
  name : String
  released : Option String
  platforms : Option (List String)
  genres : List String
deriving Repr, DecidableEq

/-- One decoded page of the upstream JSON body: the `results` items and
the truthiness of the `next` field. -/
structure PageData where
  results : List RawGame
  next : Bool
deriving Repr, DecidableEq

namespace RAWGService

/-- Source `_build_date_range`: start `f"{year}-{month:02d}-01"`, end
`f"{year}-{month:02d}-{last_day}"` with `last_day` from
`calendar.monthrange`. -/
def build_date_range (year month : Nat) : String × String :=
  (toString year ++ "-" ++ pad2 month ++ "-" ++ "01",
   toString year ++ "-" ++ pad2 month ++ "-" ++ toString (monthrange_days year month))

/-- Source `_parse_game_data`: normalize one raw item into a Game. -/
def parse_game_data (gd : RawGame) : Game :=
  { title := gd.name,
    platforms := gd.platforms.getD [],
    release_date := gd.released,
    genres := gd.genres }

/-- The loop body of `fetch_games`: `upstream` abstracts one successful
HTTP GET, keyed by the date window and the page number; the second result
component records which page numbers were requested, in order.  `fuel` is
the number of loop iterations still allowed (`max_pages` on entry). -/
def fetch_games_go (upstream : String × String → Nat → PageData)
    (dates : String × String) (pf : Option (List String))
    (page fuel : Nat) (acc : List Game) (reqs : List Nat) :
    List Game × List Nat :=
  match fuel with
  | 0 => (acc, reqs)
  | fuel + 1 =>
      if (upstream dates page).results.isEmpty then (acc, reqs ++ [page])
      else
        if !(upstream dates page).next then
          (acc ++ ((upstream dates page).results.map parse_game_data).filter
              (fun g => g.matches_platform_filter pf),
           reqs ++ [page])
        else
          fetch_games_go upstream dates pf (page + 1) fuel
            (acc ++ ((upstream dates page).results.map parse_game_data).filter
                (fun g => g.matches_platform_filter pf))
            (reqs ++ [page])

/-- Source `fetch_games`: builds the date window, then requests pages 1.. with
`max_pages = 4`, stopping on an empty page, a falsy `next`, or the cap.
Transport failures abort the whole fetch upstream of this model and are
not part of the claims; `upstream` therefore models successful responses. -/
def fetch_games (upstream : String × String → Nat → PageData)
    (year month : Nat) (pf : Option (List String)) : List Game × List Nat :=
  fetch_games_go upstream (build_date_range year month) pf 1 4 [] []

/-- Modelled from the spec: `RAWGService.fetch_random_games` is called by
`GameController.search_random_games` (src/controllers/game_controller.py)
but its definition is absent from the sources.  Per the spec it picks a
uniformly random year in [min_year, max_year] and a uniformly random month
in [1, 12] and delegates to `fetch_games`, returning the chosen pair
alongside the records.  The two `random.randint` draws are modelled by the
`randint` parameter. -/
def fetch_random_games (randint : Nat → Nat → Nat)
    (upstream : String × String → Nat → PageData)
    (min_year max_year : Nat) (pf : Option (List String)) :
    List Game × Nat × Nat :=
  let random_year := randint min_year max_year
  let random_month := randint 1 12
  ((fetch_games upstream random_year random_month pf).1, random_year, random_month)

end RAWGService

/-! ## Review enricher (src/services/openai_service.py) -/

/-- A decoded JSON value as the parser inspects it.  The sources only ever
read string, integer, boolean and null leaves from the response object;
other JSON shapes (floats, arrays, nested objects) are outside the model
and noted where relevant. -/
inductive JValue where
  | jstr (s : String)
  | jint (n : Int)
  | jbool (b : Bool)
  | jnull
deriving Repr, DecidableEq

/-- Python `str(v)` on a decoded JSON leaf. -/
def pyStr : JValue → String
  | .jstr s => s
  | .jint n => toString n
  | .jbool b => if b then "True" else "False"
  | .jnull => "None"

/-- The `rating = int(rating_raw) if isinstance(rating_raw, (int, str))
else None` step.  `none` input is a missing `rating` key (`data.get`
returns None, the isinstance test fails, rating is None).  A numeric
string is converted; a non-numeric string makes `int()` raise, which
aborts the whole strict tier (`Except.error`).  Python booleans pass the
isinstance test as ints. -/
def ratingOfRaw : Option JValue → Except Unit (Option Int)
  | none => .ok none
  | some (.jstr s) =>
      match pyIntOfString s with
      | some n => .ok (some n)
      | none => .error ()
  | some (.jint n) => .ok (some n)
  | some (.jbool b) => .ok (some (if b then 1 else 0))
  | some .jnull => .ok none

namespace OpenAIReviewService

/-- One iteration of the `_legacy_parse` marker scan: a `RECENSIONE:`
line replaces the review, a `VOTO:` line with digits replaces the rating
with the value of the first two digit characters of the whole line
(discarded to None when out of [1, 10]), any other line is ignored. -/
def legacy_scan_step (acc : String × Option Int) (line : String) :
    String × Option Int :=
  if strStartsWith "RECENSIONE:" (pyUpper line) then
    (pyStrip (List.asString (afterFirstColon line.toList)), acc.2)
  else if strStartsWith "VOTO:" (pyUpper line) then
    if !(line.toList.filter Char.isDigit).isEmpty then
      (acc.1,
       if 1 ≤ digitsToNat ((line.toList.filter Char.isDigit).take 2) ∧
            digitsToNat ((line.toList.filter Char.isDigit).take 2) ≤ 10 then
         some (digitsToNat ((line.toList.filter Char.isDigit).take 2) : Int)
       else none)
    else (acc.1, acc.2)
  else acc

/-- Source `_legacy_parse`: scan the lines for `RECENSIONE:` / `VOTO:` markers
(later markers overwrite earlier ones); when no review was marked, the
fallback joins every line that is neither all-digits nor a `VOTO:` line.
An empty review becomes None. -/
def legacy_parse (content : String) : Option String × Option Int :=
  let lines := splitlines content
  let scanned : String × Option Int :=
    lines.foldl legacy_scan_step ("", none)
  let review :=
    if scanned.1 = "" then
      let review_lines :=
        lines.filter fun ln =>
          !strippedIsDigit ln && !strStartsWith "VOTO:" (pyUpper ln)
      pyStrip (strJoin " " review_lines)
    else scanned.1
  (if review = "" then none else some review, scanned.2)

/-- The body of the `try` block of `_parse_json_response`.  `decode`
models `json.loads`: `some obj` when the content decodes to a JSON object
(given as an association list), `none` when decoding raises or the result
is not an object (then `.get` raises AttributeError — the same fallback).
Returns `none` whenever the strict tier falls through to the legacy
parser: decode failure, `int()` failure, or an empty stripped review. -/
def strict_parse (decode : String → Option (List (String × JValue)))
    (content : String) : Option (Option String × Option Int) :=
  match decode content with
  | none => none
  | some data =>
      match ratingOfRaw (data.lookup "rating") with
      | .error _ => none
      | .ok rating0 =>
          if pyStrip (pyStr ((data.lookup "review").getD (.jstr ""))) ≠ "" then
            some (some (pyStrip (pyStr ((data.lookup "review").getD (.jstr "")))),
                  match rating0 with
                  | some r => if 1 ≤ r ∧ r ≤ 10 then some r else none
                  | none => none)
          else none

/-- Source `_parse_json_response`: strict tier first, legacy fallback second;
never raises. -/
def parse_json_response (decode : String → Option (List (String × JValue)))
    (content : String) : Option String × Option Int :=
  match strict_parse decode content with
  | some r => r
  | none => legacy_parse content

/-- Source `generate_review`: (None, None) without a client; the network call
and response extraction (`net`) may raise (`Except.error`), also giving
(None, None); otherwise the two-tier parse of the returned content. -/
def generate_review (decode : String → Option (List (String × JValue)))
    (client_available : Bool) (net : Except Unit String) :
    Option String × Option Int :=
  if !client_available then (none, none)
  else
    match net with
    | .error _ => (none, none)
    | .ok content => parse_json_response decode content

end OpenAIReviewService

/-! ## Pipeline orchestrator (src/controllers/game_controller.py) -/

namespace GameController

/-- The enrichment loop of `search_games` / `search_random_games`: one
sequential `generate_review` call per record (the network outcome for the
i-th record is `nets i`), assigning the review/rating pair in place. -/
def enrich_all (decode : String → Option (List (String × JValue)))
    (nets : Nat → Except Unit String) (games : List Game) : List Game :=
  (games.enum.map fun gi =>
    let r := OpenAIReviewService.generate_review decode true (nets gi.1)
    { gi.2 with ai_review := r.1, ai_rating := r.2 })

/-- Source `search_games`: fetch, then enrich every record when requested and
the AI service is available. -/
def search_games (decode : String → Option (List (String × JValue)))
    (ai_available : Bool) (nets : Nat → Except Unit String)
    (upstream : String × String → Nat → PageData)
    (year month : Nat) (pf : Option (List String)) (include_ai : Bool) :
    List Game :=
  let games := (RAWGService.fetch_games upstream year month pf).1
  if include_ai && ai_available then enrich_all decode nets games else games

/-- Source `search_random_games`: delegate to the (spec-modelled)
`fetch_random_games`, optionally enrich, and return the chosen period
alongside the records. -/
def search_random_games (decode : String → Option (List (String × JValue)))
    (ai_available : Bool) (nets : Nat → Except Unit String)
    (randint : Nat → Nat → Nat)
    (upstream : String × String → Nat → PageData)
    (min_year max_year : Nat) (pf : Option (List String))
    (include_ai : Bool) : List Game × Nat × Nat :=
  let fetched := RAWGService.fetch_random_games randint upstream min_year max_year pf
  let games :=
    if include_ai && ai_available then enrich_all decode nets fetched.1
    else fetched.1
  (games, fetched.2.1, fetched.2.2)

end GameController

/-! ## Export strategies (src/exporters/strategies.py)

File writing is modelled by returning the produced content; the
destination path mechanics are incidental I/O per the spec's scope.
`openpyxl` is the optional dependency whose presence the sources detect
when loading the module; it is passed as an explicit boolean. -/

inductive FormatKind where
  | csv
  | markdown
  | xlsx
  | xml
deriving Repr, DecidableEq

/-- The `_strategies` registry: display name to strategy. -/
def strategies_lookup (name : String) : Option FormatKind :=
  if name = "CSV" then some .csv
  else if name = "Markdown" then some .markdown
  else if name = "XLSX (Excel)" then some .xlsx
  else if name = "XML" then some .xml
  else none

/-- Each strategy's `is_available` property. -/
def strategy_available (openpyxl : Bool) : FormatKind → Bool
  | .csv => true
  | .markdown => true
  | .xlsx => openpyxl
  | .xml => true

/-- Each strategy's `extension` property. -/
def strategy_extension : FormatKind → String
  | .csv => ".csv"
  | .markdown => ".md"
  | .xlsx => ".xlsx"
  | .xml => ".xml"

/-- The display names in registry order. -/
def format_names : List String :=
  ["CSV", "Markdown", "XLSX (Excel)", "XML"]

/-- Source `get_available_formats`: every registry name, suffixed with the
unavailability marker when the strategy is unavailable. -/
def get_available_formats (openpyxl : Bool) : List String :=
  format_names.map fun name =>
    match strategies_lookup name with
    | some k =>
        if strategy_available openpyxl k then name
        else name ++ " - Non disponibile"
    | none => name

/-- Python `format_name.split(" -")[0]`: the prefix before the first
occurrence of `" -"`, or the whole string when the separator is absent. -/
def split_first (sep : List Char) : List Char → List Char
  | [] => []
  | c :: rest =>
      if sep.isPrefixOf (c :: rest) then []
      else c :: split_first sep rest

/-- The `clean_name = format_name.split(" -")[0]` step of
`create_strategy`. -/
def clean_format_name (format_name : String) : String :=
  List.asString (split_first (" -").toList format_name.toList)

/-- Source `create_strategy`: strip the marker, look the cleaned name up, fail
when unknown or when the resolved strategy is unavailable. -/
def create_strategy (openpyxl : Bool) (format_name : String) :
    Except String FormatKind :=
  let clean_name := clean_format_name format_name
  match strategies_lookup clean_name with
  | none => .error ("Unknown export format: " ++ format_name)
  | some k =>
      if strategy_available openpyxl k then .ok k
      else .error ("Export format " ++ clean_name ++ " is not available")

/-- One `csv.DictWriter.writerow` call with the default
`extrasaction="raise"` and `restval=""`: a row dict with a key outside
the field names raises ValueError; missing keys are filled with "". -/
def csv_writerow (fieldnames : List String) (d : List (String × String)) :
    Except String (List String) :=
  if d.any (fun kv => !(fieldnames.contains kv.1)) then
    .error "dict contains fields not in fieldnames"
  else
    .ok (fieldnames.map fun f => (d.lookup f).getD "")

/-- Source `CSVExportStrategy.export`: header from the first record's dict, then
one row per record; empty input is an export error.  Result: the field
names (header row) and the data rows. -/
def CSVExportStrategy_export :
    List Game → Except String (List String × List (List String))
  | [] => .error "No games to export"
  | g :: gs =>
      let fieldnames := g.to_dict.map Prod.fst
      ((g :: gs).mapM fun gm => csv_writerow fieldnames gm.to_dict).map
        fun rows => (fieldnames, rows)

/-- The document produced by `MarkdownExportStrategy.export`: title line,
export timestamp, total count, and the tabulated header/rows. -/
structure MarkdownDoc where
  export_date : String
  total_games : Nat
  headers : List String
  rows : List (List String)
deriving Repr, DecidableEq

/-- Source `MarkdownExportStrategy.export` (`now` models `datetime.now()`). -/
def MarkdownExportStrategy_export (now : String) :
    List Game → Except String MarkdownDoc
  | [] => .error "No games to export"
  | g :: gs =>
      .ok { export_date := now,
            total_games := (g :: gs).length,
            headers := g.to_dict.map Prod.fst,
            rows := (g :: gs).map fun gm => gm.to_dict.map Prod.snd }

/-- Source `XLSXExportStrategy.export`: the openpyxl check precedes the empty
check; result is the header row and data rows of the single sheet (the
column-width cosmetics are not modelled).  Each data cell is
`game_dict[header]`, which raises KeyError — an error, not an empty
cell — when a record lacks a header key (e.g. an unenriched record after
an enriched first record). -/
def XLSXExportStrategy_export (openpyxl : Bool) :
    List Game → Except String (List String × List (List String))
  | games =>
      if !openpyxl then .error "openpyxl non è installato"
      else
        match games with
        | [] => .error "No games to export"
        | g :: gs =>
            ((g :: gs).mapM fun (gm : Game) =>
                (g.to_dict.map Prod.fst).mapM fun (h : String) =>
                  (match gm.to_dict.lookup h with
                   | some v => Except.ok v
                   | none => Except.error ("KeyError: " ++ h) :
                    Except String String)).map
              fun rows => (g.to_dict.map Prod.fst, rows)

/-- One `<game>` element of the XML document; `ai` holds the
review/rating sub-elements, present exactly when the collection-wide
enrichment flag is set. -/
structure XMLGame where
  title : String
  platforms : String
  release_date : String
  genres : String
  ai : Option (String × String)
deriving Repr, DecidableEq

/-- The element built for one game by `XMLExportStrategy.export`, given
the collection-wide `has_ai_reviews` flag. -/
def xml_game_elem (has_ai_reviews : Bool) (g : Game) : XMLGame :=
  { title := g.title,
    platforms := g.platforms_str,
    release_date := orNA g.release_date,
    genres := g.genres_str,
    ai := if has_ai_reviews then some (orNA g.ai_review, g.ai_rating_str)
          else none }

/-- The XML document: metadata section then one element per game. -/
structure XMLDoc where
  export_date : String
  total_games : Nat
  includes_ai_reviews : Bool
  games : List XMLGame
deriving Repr, DecidableEq

/-- Source `XMLExportStrategy.export`. -/
def XMLExportStrategy_export (now : String) :
    List Game → Except String XMLDoc
  | [] => .error "No games to export"
  | games =>
      let has_ai_reviews := games.any fun g => g.ai_review.isSome
      .ok { export_date := now,
            total_games := games.length,
            includes_ai_reviews := has_ai_reviews,
            games := games.map (xml_game_elem has_ai_reviews) }

/-- The content produced by whichever strategy ran. -/
inductive ExportOutput where
  | csv (header : List String) (rows : List (List String))
  | markdown (doc : MarkdownDoc)
  | xlsx (header : List String) (rows : List (List String))
  | xml (doc : XMLDoc)
deriving Repr, DecidableEq

/-- Dispatch `strategy.export` for a resolved strategy. -/
def run_strategy (openpyxl : Bool) (now : String) (k : FormatKind)
    (games : List Game) : Except String ExportOutput :=
  match k with
  | .csv => (CSVExportStrategy_export games).map fun r => .csv r.1 r.2
  | .markdown => (MarkdownExportStrategy_export now games).map .markdown
  | .xlsx => (XLSXExportStrategy_export openpyxl games).map fun r => .xlsx r.1 r.2
  | .xml => (XMLExportStrategy_export now games).map .xml

/-- Source `ExportManager.export_games` (src/exporters/export_manager.py): the
empty-collection check runs before any strategy resolution; then resolve
and delegate.  Directory creation and path joining are incidental I/O and
not modelled; other exceptions raised below (e.g. the CSV ValueError) are
re-wrapped as export errors, which the Except error channel already
represents. -/
def export_games (openpyxl : Bool) (now : String) (games : List Game)
    (format_name : String) : Except String ExportOutput :=
  if games.isEmpty then .error "Nessun dato da esportare!"
  else
    match create_strategy openpyxl format_name with
    | .error e => .error e
    | .ok k => run_strategy openpyxl now k games

/-! ## Page accounting for the fetch loop -/

/-- The stopping test of the fetch loop at one page: the page has zero
items or the response signals no further page. -/
def stops_page (upstream : String × String → Nat → PageData)
    (dates : String × String) (page : Nat) : Bool :=
  (upstream dates page).results.isEmpty || !(upstream dates page).next

/-- The number of pages the fetch loop requests starting at `page` with
`fuel` loop iterations left. -/
def pages_consumed (upstream : String × String → Nat → PageData)
    (dates : String × String) (page fuel : Nat) : Nat :=
  match fuel with
  | 0 => 0
  | fuel + 1 =>
      if stops_page upstream dates page then 1
      else 1 + pages_consumed upstream dates (page + 1) fuel

/-! ## Supporting lemmas -/

/-- The fetch loop requests exactly the consecutive pages counted by
`pages_consumed`, in ascending order. -/
theorem fetch_go_reqs (u : String × String → Nat → PageData)
    (d : String × String) (pf : Option (List String)) :
    ∀ fuel page acc reqs,
      (RAWGService.fetch_games_go u d pf page fuel acc reqs).2 =
        reqs ++ List.range' page (pages_consumed u d page fuel) := by
  intro fuel
  induction fuel with
  | zero =>
      intro page acc reqs
      simp [RAWGService.fetch_games_go, pages_consumed]
  | succ n ih =>
      intro page acc reqs
      unfold RAWGService.fetch_games_go pages_consumed
      by_cases hempty : (u d page).results.isEmpty = true
      · rw [if_pos hempty, if_pos (by simp [stops_page, hempty])]
        simp [List.range'_succ]
      · rw [if_neg hempty]
        by_cases hnext : (!(u d page).next) = true
        · rw [if_pos hnext, if_pos (by simp [stops_page, hnext])]
          simp [List.range'_succ]
        · have hstop : stops_page u d page = false := by
            simp only [stops_page, Bool.or_eq_false_iff]
            exact ⟨by simpa using hempty, by simpa using hnext⟩
          rw [if_neg hnext, if_neg (by simp [hstop])]
          rw [ih, Nat.add_comm 1 (pages_consumed u d (page + 1) n),
            List.range'_succ, List.append_assoc]
          rfl

/-- The fetch loop never requests more pages than it has fuel for. -/
theorem pages_consumed_le (u : String × String → Nat → PageData)
    (d : String × String) :
    ∀ fuel page, pages_consumed u d page fuel ≤ fuel := by
  intro fuel
  induction fuel with
  | zero => intro page; simp [pages_consumed]
  | succ n ih =>
      intro page
      unfold pages_consumed
      split_ifs
      · omega
      · have := ih (page + 1)
        omega

/-- With fuel left, the fetch loop requests at least one page. -/
theorem pages_consumed_pos (u : String × String → Nat → PageData)
    (d : String × String) (fuel page : Nat) (h : 0 < fuel) :
    1 ≤ pages_consumed u d page fuel := by
  cases fuel with
  | zero => omega
  | succ n =>
      unfold pages_consumed
      split_ifs
      · omega
      · omega

/-- Every page before the last requested one fails the stopping test:
the loop stops at the earliest stopping page. -/
theorem pages_consumed_not_stop (u : String × String → Nat → PageData)
    (d : String × String) :
    ∀ fuel page i, i + 1 < pages_consumed u d page fuel →
      stops_page u d (page + i) = false := by
  intro fuel
  induction fuel with
  | zero =>
      intro page i h
      simp [pages_consumed] at h
  | succ n ih =>
      intro page i h
      unfold pages_consumed at h
      by_cases hs : stops_page u d page = true
      · rw [if_pos hs] at h
        omega
      · rw [if_neg hs] at h
        cases i with
        | zero =>
            simpa using hs
        | succ j =>
            have hrec := ih (page + 1) j (by omega)
            have heq : page + (j + 1) = page + 1 + j := by omega
            rw [heq]
            exact hrec

/-- When the loop stops before exhausting its fuel, the last requested
page satisfies the stopping test. -/
theorem pages_consumed_last_stop (u : String × String → Nat → PageData)
    (d : String × String) :
    ∀ fuel page, pages_consumed u d page fuel < fuel →
      stops_page u d (page + pages_consumed u d page fuel - 1) = true := by
  intro fuel
  induction fuel with
  | zero =>
      intro page h
      simp [pages_consumed] at h
  | succ n ih =>
      intro page h
      unfold pages_consumed at h ⊢
      by_cases hs : stops_page u d page = true
      · rw [if_pos hs]
        simpa using hs
      · rw [if_neg hs] at h ⊢
        have hrec := ih (page + 1) (by omega)
        have heq : page + (1 + pages_consumed u d (page + 1) n) - 1 =
            page + 1 + pages_consumed u d (page + 1) n - 1 := by omega
        rw [heq]
        exact hrec

/-- The enrichment loop acts pointwise: the i-th output record is the
i-th input record with the outcome of its own enrichment call assigned. -/
theorem enrich_all_get? (decode : String → Option (List (String × JValue)))
    (nets : Nat → Except Unit String) (games : List Game) (i : Nat) :
    (GameController.enrich_all decode nets games).get? i =
      (games.get? i).map fun g =>
        { g with
          ai_review := (OpenAIReviewService.generate_review decode true (nets i)).1,
          ai_rating := (OpenAIReviewService.generate_review decode true (nets i)).2 } := by
  simp [GameController.enrich_all, List.get?_map, List.get?_enum, Option.map_map]
  cases games[i]? <;> rfl

/-- One legacy scan step either keeps the stored rating or stores one
inside [1, 10]. -/
theorem legacy_scan_step_rating (acc : String × Option Int) (line : String)
    (w : Int)
    (hw : (OpenAIReviewService.legacy_scan_step acc line).2 = some w) :
    acc.2 = some w ∨ (1 ≤ w ∧ w ≤ 10) := by
  unfold OpenAIReviewService.legacy_scan_step at hw
  by_cases h1 : strStartsWith "RECENSIONE:" (pyUpper line) = true
  · rw [if_pos h1] at hw
    exact Or.inl hw
  · rw [if_neg h1] at hw
    by_cases h2 : strStartsWith "VOTO:" (pyUpper line) = true
    · rw [if_pos h2] at hw
      by_cases h3 : (!(line.toList.filter Char.isDigit).isEmpty) = true
      · rw [if_pos h3] at hw
        by_cases h4 : 1 ≤ digitsToNat ((line.toList.filter Char.isDigit).take 2) ∧
            digitsToNat ((line.toList.filter Char.isDigit).take 2) ≤ 10
        · rw [if_pos h4] at hw
          right
          have hcast : (digitsToNat ((line.toList.filter Char.isDigit).take 2) : Int) = w := by
            injection hw
          omega
        · rw [if_neg h4] at hw
          exact Option.noConfusion hw
      · rw [if_neg h3] at hw
        exact Or.inl hw
    · rw [if_neg h2] at hw
      exact Or.inl hw

/-- The marker scan of the legacy parser only ever stores a rating inside
[1, 10]. -/
theorem legacy_scan_rating_range (lines : List String)
    (acc : String × Option Int)
    (hacc : ∀ v : Int, acc.2 = some v → 1 ≤ v ∧ v ≤ 10) :
    ∀ v : Int,
      (lines.foldl OpenAIReviewService.legacy_scan_step acc).2 = some v →
        1 ≤ v ∧ v ≤ 10 := by
  induction lines generalizing acc with
  | nil => exact hacc
  | cons line rest ih =>
      intro v hv
      refine ih (OpenAIReviewService.legacy_scan_step acc line) ?_ v hv
      intro w hw
      rcases legacy_scan_step_rating acc line w hw with h | h
      · exact hacc w h
      · exact h

/-- The rating stored by `_legacy_parse` is in [1, 10] when present. -/
theorem legacy_parse_rating_range (content : String) (v : Int)
    (h : (OpenAIReviewService.legacy_parse content).2 = some v) :
    1 ≤ v ∧ v ≤ 10 := by
  unfold OpenAIReviewService.legacy_parse at h
  exact legacy_scan_rating_range (splitlines content) ("", none)
    (by intro w hw; cases hw) v h

/-- A successful strict-tier parse returns a nonempty review and an
in-range rating when one is present at all. -/
theorem strict_parse_shape (decode : String → Option (List (String × JValue)))
    (content : String) (r : Option String) (t : Option Int)
    (h : OpenAIReviewService.strict_parse decode content = some (r, t)) :
    (∃ s, r = some s ∧ s ≠ "") ∧ (∀ v : Int, t = some v → 1 ≤ v ∧ v ≤ 10) := by
  cases hd : decode content with
  | none =>
      simp only [OpenAIReviewService.strict_parse, hd] at h
      exact Option.noConfusion h
  | some data =>
      cases hr : ratingOfRaw (data.lookup "rating") with
      | error e =>
          simp only [OpenAIReviewService.strict_parse, hd, hr] at h
          exact Option.noConfusion h
      | ok rating0 =>
          simp only [OpenAIReviewService.strict_parse, hd, hr] at h
          split_ifs at h with hrev
          · cases h
            refine ⟨⟨_, rfl, hrev⟩, ?_⟩
            intro v hv
            cases rating0 with
            | none => exact Option.noConfusion hv
            | some r0 =>
                by_cases hrange : 1 ≤ r0 ∧ r0 ≤ 10
                · rw [show (match some r0 with
                        | some r => if 1 ≤ r ∧ r ≤ 10 then some r else none
                        | none => (none : Option Int)) =
                      if 1 ≤ r0 ∧ r0 ≤ 10 then some r0 else none from rfl,
                    if_pos hrange] at hv
                  cases hv
                  exact hrange
                · rw [show (match some r0 with
                        | some r => if 1 ≤ r ∧ r ≤ 10 then some r else none
                        | none => (none : Option Int)) =
                      if 1 ≤ r0 ∧ r0 ≤ 10 then some r0 else none from rfl,
                    if_neg hrange] at hv
                  exact Option.noConfusion hv

/-- The two-tier response parse only ever returns a rating in [1, 10]. -/
theorem parse_rating_range (decode : String → Option (List (String × JValue)))
    (content : String) (v : Int)
    (h : (OpenAIReviewService.parse_json_response decode content).2 = some v) :
    1 ≤ v ∧ v ≤ 10 := by
  unfold OpenAIReviewService.parse_json_response at h
  cases hs : OpenAIReviewService.strict_parse decode content with
  | none =>
      rw [hs] at h
      exact legacy_parse_rating_range content v h
  | some p =>
      obtain ⟨r, t⟩ := p
      rw [hs] at h
      exact (strict_parse_shape decode content r t hs).2 v h

/-- Any rating produced by `generate_review` is in [1, 10]. -/
theorem generate_review_rating_range
    (decode : String → Option (List (String × JValue)))
    (avail : Bool) (net : Except Unit String) (v : Int)
    (h : (OpenAIReviewService.generate_review decode avail net).2 = some v) :
    1 ≤ v ∧ v ≤ 10 := by
  cases avail with
  | false => simp [OpenAIReviewService.generate_review] at h
  | true =>
      cases net with
      | error e => simp [OpenAIReviewService.generate_review] at h
      | ok content =>
          refine parse_rating_range decode content v ?_
          simpa [OpenAIReviewService.generate_review] using h

/-- The projected field map of a record has the four base keys, plus the
two AI keys exactly when the record is enriched. -/
theorem to_dict_keys (g : Game) :
    (g.ai_review = none →
      g.to_dict.map Prod.fst = ["Title", "Platforms", "Release Date", "Genres"]) ∧
    (g.ai_review ≠ none →
      g.to_dict.map Prod.fst =
        ["Title", "Platforms", "Release Date", "Genres",
         "AI Review", "AI Rating"]) := by
  constructor
  · intro h
    simp [Game.to_dict, h]
  · intro h
    cases hg : g.ai_review with
    | none => exact absurd hg h
    | some rv => simp [Game.to_dict, hg]

/-- Every key of a record's field map is one of the six known columns. -/
theorem to_dict_key_mem (gm : Game) (kv : String × String)
    (h : kv ∈ gm.to_dict) :
    kv.1 = "Title" ∨ kv.1 = "Platforms" ∨ kv.1 = "Release Date" ∨
    kv.1 = "Genres" ∨ kv.1 = "AI Review" ∨ kv.1 = "AI Rating" := by
  cases hg : gm.ai_review with
  | none =>
      simp [Game.to_dict, hg] at h
      rcases h with rfl | rfl | rfl | rfl <;> simp
  | some rv =>
      simp [Game.to_dict, hg] at h
      rcases h with rfl | rfl | rfl | rfl | rfl | rfl <;> simp

/-- Every key of a record's field map is contained in the full six-column
header. -/
theorem to_dict_key_contains (gm : Game) (kv : String × String)
    (h : kv ∈ gm.to_dict) :
    (["Title", "Platforms", "Release Date", "Genres",
      "AI Review", "AI Rating"].contains kv.1) = true := by
  rcases to_dict_key_mem gm kv h with h1 | h1 | h1 | h1 | h1 | h1 <;>
    rw [h1] <;> rfl

/-- A row write succeeds when every key of the row dict is among the
field names, producing the lookups in field order with "" for missing
keys. -/
theorem csv_writerow_ok (fn : List String) (d : List (String × String))
    (h : ∀ kv ∈ d, fn.contains kv.1 = true) :
    csv_writerow fn d = .ok (fn.map fun f => (d.lookup f).getD "") := by
  have hno : (d.any fun kv => !(fn.contains kv.1)) = false := by
    rw [List.any_eq_false]
    intro kv hkv
    simpa using h kv hkv
  unfold csv_writerow
  rw [if_neg (by simp only [hno]; exact Bool.false_ne_true)]

/-- Writing all rows succeeds when every record's keys are among the
field names. -/
theorem csv_rows_ok (fn : List String) :
    ∀ l : List Game,
      (∀ gm ∈ l, ∀ kv ∈ gm.to_dict, fn.contains kv.1 = true) →
      (l.mapM fun gm => csv_writerow fn gm.to_dict) =
        .ok (l.map fun gm => fn.map fun f => (gm.to_dict.lookup f).getD "") := by
  intro l
  induction l with
  | nil => intro _; rfl
  | cons g gs ih =>
      intro h
      rw [List.mapM_cons, csv_writerow_ok fn g.to_dict (h g (by simp)),
        ih fun gm hm kv hkv => h gm (by simp [hm]) kv hkv]
      rfl

/-! ## Claims -/

/-- C7: a null or empty platform filter matches every record; a non-empty
filter matches a record iff some platform name of the record contains,
case-insensitively, some filter token as a substring. -/
theorem C7_platform_filter_semantics (g : Game) (pf : Option (List String)) :
    g.matches_platform_filter pf = true ↔
      (pf.getD [] = [] ∨
        ∃ p ∈ g.platforms, ∃ f ∈ pf.getD [],
          strContainsSub (pyLower p) (pyLower f) = true) := by
  cases pf with
  | none => simp [Game.matches_platform_filter]
  | some fs =>
      cases fs with
      | nil => simp [Game.matches_platform_filter]
      | cons a l => simp [Game.matches_platform_filter]

/-- C10: every strategy rejects an empty collection with an export error,
and the dispatcher rejects an empty collection before resolving any
strategy — the same error for every format name, known or unknown. -/
theorem C10_empty_collection_rejected (openpyxl : Bool) (now format_name : String) :
    CSVExportStrategy_export [] = .error "No games to export" ∧
    MarkdownExportStrategy_export now [] = .error "No games to export" ∧
    XLSXExportStrategy_export openpyxl [] =
      .error (if openpyxl then "No games to export" else "openpyxl non è installato") ∧
    XMLExportStrategy_export now [] = .error "No games to export" ∧
    export_games openpyxl now [] format_name = .error "Nessun dato da esportare!" := by
  refine ⟨rfl, rfl, ?_, rfl, rfl⟩
  cases openpyxl <;> rfl

/-- C9: resolution strips the unavailability marker before lookup and
fails iff the cleaned name is unknown or the resolved strategy is
unavailable; in particular the marked name "XLSX (Excel) - Non
disponibile" yields an export error when openpyxl is missing, but
resolves to the XLSX strategy (no error) when openpyxl is installed. -/
theorem C9_resolve_marked_name (openpyxl : Bool) (format_name : String) :
    create_strategy false "XLSX (Excel) - Non disponibile" =
      .error "Export format XLSX (Excel) is not available" ∧
    create_strategy true "XLSX (Excel) - Non disponibile" = .ok .xlsx ∧
    ((create_strategy openpyxl format_name).isOk = false ↔
      strategies_lookup (clean_format_name format_name) = none ∨
      ∃ k, strategies_lookup (clean_format_name format_name) = some k ∧
        strategy_available openpyxl k = false) := by
  refine ⟨rfl, rfl, ?_⟩
  unfold create_strategy
  cases h : strategies_lookup (clean_format_name format_name) with
  | none =>
      simp [h]
      rfl
  | some k =>
      cases ha : strategy_available openpyxl k <;> simp [h, ha] <;> rfl

/-- C1 counterexample: for year 2023, month 12 the fetcher's query window
ends at "2023-12-31"; it does not roll into "2024-01-01" as the half-open
window in the claim states. -/
theorem C1_counterexample :
    (RAWGService.build_date_range 2023 12).2 = "2023-12-31" ∧
    (RAWGService.build_date_range 2023 12).2 ≠ "2024-01-01" :=
  ⟨rfl, by decide⟩

/-- C1 amended: the fetcher queries the closed window from the first to
the last day of the requested month — start `year-month-01`, end
`year-month-lastday` with the leap-aware month length (28..31); for
December the end date is `year-12-31`: the day count caps at the month's
last day and the year never rolls over. -/
theorem C1_closed_window (y m : Nat) (h1 : 1 ≤ m) (h2 : m ≤ 12) :
    RAWGService.build_date_range y m =
      (toString y ++ "-" ++ pad2 m ++ "-01",
       toString y ++ "-" ++ pad2 m ++ "-" ++ toString (monthrange_days y m)) ∧
    28 ≤ monthrange_days y m ∧ monthrange_days y m ≤ 31 ∧
    RAWGService.build_date_range y 12 =
      (toString y ++ "-12-01", toString y ++ "-12-31") := by
  refine ⟨?_, ?_, ?_, ?_⟩
  · simp [RAWGService.build_date_range, String.append_assoc]
  · unfold monthrange_days
    split_ifs with hf hl <;> omega
  · unfold monthrange_days
    split_ifs with hf hl <;> omega
  · have h12 : (toString 12 : String) = "12" := rfl
    have h31 : (toString 31 : String) = "31" := rfl
    simp [RAWGService.build_date_range, pad2, monthrange_days, h12, h31,
      String.append_assoc]

/-- C1 witness: the amended theorem applied at year 2023, month 12. -/
theorem C1_closed_window_witness :
    RAWGService.build_date_range 2023 12 =
      (toString 2023 ++ "-12-01", toString 2023 ++ "-12-31") :=
  (C1_closed_window 2023 12 (by decide) (by decide)).2.2.2

/-- C2: the random-search operation picks a year in [min_year, max_year]
and a month in [1, 12] (uniformity being the contract of the modelled
`random.randint` boundary), delegates to the ordinary fetch for exactly
that period, and returns the chosen pair alongside the records; the
controller operation forwards that same triple. -/
theorem C2_random_search (randint : Nat → Nat → Nat)
    (hr : ∀ a b : Nat, a ≤ b → a ≤ randint a b ∧ randint a b ≤ b)
    (upstream : String × String → Nat → PageData)
    (min_year max_year : Nat) (hy : min_year ≤ max_year)
    (pf : Option (List String))
    (decode : String → Option (List (String × JValue)))
    (ai_available : Bool) (nets : Nat → Except Unit String) :
    RAWGService.fetch_random_games randint upstream min_year max_year pf =
      ((RAWGService.fetch_games upstream (randint min_year max_year)
          (randint 1 12) pf).1,
       randint min_year max_year, randint 1 12) ∧
    min_year ≤ randint min_year max_year ∧
    randint min_year max_year ≤ max_year ∧
    1 ≤ randint 1 12 ∧ randint 1 12 ≤ 12 ∧
    GameController.search_random_games decode ai_available nets randint
        upstream min_year max_year pf false =
      RAWGService.fetch_random_games randint upstream min_year max_year pf := by
  have hy2 := hr min_year max_year hy
  have hm2 := hr 1 12 (by omega)
  refine ⟨rfl, hy2.1, hy2.2, hm2.1, hm2.2, ?_⟩
  simp [GameController.search_random_games]

/-- C3 counterexample: an enrichment call whose response is malformed
(the decoder models `json.loads` raising on the non-JSON text "not json")
does not yield (null, null): the legacy fallback salvages the whole text
as the review, so the record gets review "not json" and null rating. -/
theorem C3_counterexample :
    OpenAIReviewService.generate_review (fun _ => none) true
        (Except.ok "not json") = (some "not json", none) ∧
    (some "not json", (none : Option Int)) ≠
      ((none : Option String), (none : Option Int)) :=
  ⟨rfl, by decide⟩

/-- C3 amended: an enrichment call that throws yields (null, null) for
that record; an undecodable response, or one whose rating field makes the
integer conversion raise, falls back to the legacy line parse of the raw
text, yielding (null, null) only when that parse salvages nothing; a
decodable response with nonempty review text is answered by the strict
tier even when its rating field is missing (no fallback, and not
(null, null)).  In every case no exception reaches the caller — the call
is a total function — and the batch loop is pointwise, so every record,
including those after a failed one, is still processed from its own
call's outcome. -/
theorem C3_enrichment_isolation
    (decode : String → Option (List (String × JValue)))
    (nets : Nat → Except Unit String) (games : List Game)
    (content : String) (data : List (String × JValue)) :
    (∀ d : String → Option (List (String × JValue)),
      OpenAIReviewService.generate_review d true (Except.error ()) = (none, none)) ∧
    (decode content = none →
      OpenAIReviewService.generate_review decode true (Except.ok content) =
        OpenAIReviewService.legacy_parse content) ∧
    (decode content = some data →
      ratingOfRaw (data.lookup "rating") = .error () →
      OpenAIReviewService.generate_review decode true (Except.ok content) =
        OpenAIReviewService.legacy_parse content) ∧
    (decode content = some data →
      data.lookup "rating" = none →
      pyStrip (pyStr ((data.lookup "review").getD (.jstr ""))) ≠ "" →
      OpenAIReviewService.generate_review decode true (Except.ok content) =
        (some (pyStrip (pyStr ((data.lookup "review").getD (.jstr "")))), none)) ∧
    (GameController.enrich_all decode nets games).length = games.length ∧
    (∀ i g, games.get? i = some g →
      (GameController.enrich_all decode nets games).get? i =
        some { g with
          ai_review := (OpenAIReviewService.generate_review decode true (nets i)).1,
          ai_rating := (OpenAIReviewService.generate_review decode true (nets i)).2 }) := by
  refine ⟨fun d => rfl, ?_, ?_, ?_, ?_, ?_⟩
  · intro hdec
    simp [OpenAIReviewService.generate_review,
      OpenAIReviewService.parse_json_response,
      OpenAIReviewService.strict_parse, hdec]
  · intro hdec hrat
    simp [OpenAIReviewService.generate_review,
      OpenAIReviewService.parse_json_response,
      OpenAIReviewService.strict_parse, hdec, hrat]
  · intro hdec hlookup hrev
    have hrat : ratingOfRaw (data.lookup "rating") = .ok none := by
      rw [hlookup]
      rfl
    have hs : OpenAIReviewService.strict_parse decode content =
        some (some (pyStrip (pyStr ((data.lookup "review").getD (.jstr "")))),
              none) := by
      simp only [OpenAIReviewService.strict_parse, hdec, hrat]
      rw [if_pos hrev]
    simp [OpenAIReviewService.generate_review,
      OpenAIReviewService.parse_json_response, hs]
  · simp [GameController.enrich_all]
  · intro i g hg
    rw [enrich_all_get?, hg]
    rfl

/-- C3 witness: the theorem applied to a schema-violating but decodable
response carrying only a review field — the strict tier answers with the
review and no rating — and to a two-record batch whose every enrichment
call throws, where the second record is still processed and gets
(null, null). -/
theorem C3_enrichment_isolation_witness :
    OpenAIReviewService.generate_review
        (fun _ => some [("review", JValue.jstr "ok")]) true (Except.ok "x") =
      (some "ok", none) ∧
    (GameController.enrich_all (fun _ => none) (fun _ => Except.error ())
        [{ title := "A", platforms := [], release_date := none, genres := [] },
         { title := "B", platforms := [], release_date := none, genres := [] }]).get? 1 =
      some { title := "B", platforms := [], release_date := none, genres := [],
             ai_review := none, ai_rating := none } := by
  constructor
  · exact (C3_enrichment_isolation (fun _ => some [("review", JValue.jstr "ok")])
      (fun _ => Except.error ()) [] "x" [("review", JValue.jstr "ok")]).2.2.2.1
      rfl rfl (by decide)
  · exact (C3_enrichment_isolation (fun _ => none) (fun _ => Except.error ())
      [{ title := "A", platforms := [], release_date := none, genres := [] },
       { title := "B", platforms := [], release_date := none, genres := [] }]
      "" []).2.2.2.2.2
      1 { title := "B", platforms := [], release_date := none, genres := [] } rfl

/-- C4 counterexample: running the pipeline with every enrichment
response being "VOTO: 8" (not valid JSON, so the modelled `json.loads`
fails and the legacy parse runs) produces a record whose rating is 8 while
its review text is null — a non-null rating without review text. -/
theorem C4_counterexample :
    GameController.search_games (fun _ => none) true
        (fun _ => Except.ok "VOTO: 8")
        (fun _ _ => { results := [{ name := "A", released := none,
                                    platforms := some ["PC"], genres := [] }],
                      next := false })
        2020 5 none true =
      [{ title := "A", platforms := ["PC"], release_date := none, genres := [],
         ai_review := none, ai_rating := some 8 }] := by
  decide

/-- C4 amended: after the pipeline every present rating lies in [1, 10],
and a pair produced by the strict JSON tier carries a rating only
alongside nonempty review text; but the legacy fallback can pair a rating
with a null review when the response holds a rating-marker line and no
review content (response "VOTO: 8" parses to (null, 8)), so
rating-without-review is possible in that corner. -/
theorem C4_rating_review_invariant
    (decode : String → Option (List (String × JValue)))
    (content : String) (nets : Nat → Except Unit String)
    (games : List Game) :
    (∀ r t, OpenAIReviewService.strict_parse decode content = some (r, t) →
      t ≠ none → ∃ s, r = some s ∧ s ≠ "") ∧
    (∀ i g v, (GameController.enrich_all decode nets games).get? i = some g →
      g.ai_rating = some v → 1 ≤ v ∧ v ≤ 10) ∧
    OpenAIReviewService.parse_json_response (fun _ => none) "VOTO: 8" =
      (none, some 8) := by
  refine ⟨?_, ?_, by decide⟩
  · intro r t h ht
    exact (strict_parse_shape decode content r t h).1
  · intro i g v hg hv
    rw [enrich_all_get?] at hg
    cases hgame : games.get? i with
    | none => rw [hgame] at hg; exact Option.noConfusion hg
    | some g0 =>
        rw [hgame] at hg
        cases hg
        exact generate_review_rating_range decode true (nets i) v hv

/-- C4 witness: the theorem applied with the strict tier succeeding on a
response carrying review "bello" and rating 7 — the rating comes with
nonempty review text. -/
theorem C4_rating_review_invariant_witness :
    ∃ s, some "bello" = some s ∧ s ≠ "" :=
  (C4_rating_review_invariant
      (fun _ => some [("review", JValue.jstr "bello"), ("rating", JValue.jint 7)])
      "x" (fun _ => Except.error ()) []).1 (some "bello") (some 7) (by decide)
    (by decide)

/-- C6: a parsed rating outside [1, 10] is normalized to absent, never
clamped, while parsed review text is kept — (strict tier) a decoded
response with nonempty review and an out-of-range rating yields the
review paired with an absent rating; (both tiers) any returned rating
lies in [1, 10], so 15 is never clamped to 10; (legacy tier) a
rating-marker line whose first two digits fall outside [1, 10] stores an
absent rating and leaves the review component untouched. -/
theorem C6_rating_never_clamped
    (decode : String → Option (List (String × JValue)))
    (content : String) (data : List (String × JValue)) (v : Int)
    (acc : String × Option Int) (line : String) :
    (decode content = some data →
      ratingOfRaw (data.lookup "rating") = .ok (some v) →
      ¬(1 ≤ v ∧ v ≤ 10) →
      pyStrip (pyStr ((data.lookup "review").getD (.jstr ""))) ≠ "" →
      OpenAIReviewService.parse_json_response decode content =
        (some (pyStrip (pyStr ((data.lookup "review").getD (.jstr "")))), none)) ∧
    (∀ w : Int,
      (OpenAIReviewService.parse_json_response decode content).2 = some w →
        1 ≤ w ∧ w ≤ 10) ∧
    (strStartsWith "VOTO:" (pyUpper line) = true →
      strStartsWith "RECENSIONE:" (pyUpper line) = false →
      (!(line.toList.filter Char.isDigit).isEmpty) = true →
      ¬(1 ≤ digitsToNat ((line.toList.filter Char.isDigit).take 2) ∧
        digitsToNat ((line.toList.filter Char.isDigit).take 2) ≤ 10) →
      OpenAIReviewService.legacy_scan_step acc line = (acc.1, none)) := by
  refine ⟨?_, ?_, ?_⟩
  · intro hdec hrat hrange hrev
    have hs : OpenAIReviewService.strict_parse decode content =
        some (some (pyStrip (pyStr ((data.lookup "review").getD (.jstr "")))),
              none) := by
      simp only [OpenAIReviewService.strict_parse, hdec, hrat]
      rw [if_pos hrev, if_neg hrange]
    simp [OpenAIReviewService.parse_json_response, hs]
  · exact fun w hw => parse_rating_range decode content w hw
  · intro hvoto hrec hdig hrange
    unfold OpenAIReviewService.legacy_scan_step
    rw [if_neg (by simp [hrec]), if_pos hvoto, if_pos hdig, if_neg hrange]

/-- C6 witness: the strict tier on review "bello" with rating 15 keeps
the review and drops the rating (no clamping to 10), and a legacy scan
step on the line "VOTO: 15" stores no rating. -/
theorem C6_rating_never_clamped_witness :
    OpenAIReviewService.parse_json_response
        (fun _ => some [("review", JValue.jstr "bello"),
                        ("rating", JValue.jint 15)]) "x" =
      (some "bello", none) ∧
    OpenAIReviewService.legacy_scan_step ("", none) "VOTO: 15" = ("", none) := by
  constructor
  · exact (C6_rating_never_clamped
        (fun _ => some [("review", JValue.jstr "bello"),
                        ("rating", JValue.jint 15)]) "x"
        [("review", JValue.jstr "bello"), ("rating", JValue.jint 15)] 15
        ("", none) "VOTO: 15").1 rfl rfl (by decide) (by decide)
  · exact (C6_rating_never_clamped
        (fun _ => some [("review", JValue.jstr "bello"),
                        ("rating", JValue.jint 15)]) "x"
        [("review", JValue.jstr "bello"), ("rating", JValue.jint 15)] 15
        ("", none) "VOTO: 15").2.2 (by decide) (by decide) (by decide)
        (by decide)

/-- C8: the fetch requests consecutive pages in ascending order starting
at page 1, makes at least one and at most `max_pages = 4` requests
regardless of the upstream responses, never stops before a stopping page
(every earlier page has items and a truthy next), and whenever it stops
before the cap the last requested page satisfies a stop condition (zero
items or no further page). -/
theorem C8_pagination_bounded (upstream : String × String → Nat → PageData)
    (year month : Nat) (pf : Option (List String)) :
    (RAWGService.fetch_games upstream year month pf).2 =
      List.range' 1 (RAWGService.fetch_games upstream year month pf).2.length ∧
    1 ≤ (RAWGService.fetch_games upstream year month pf).2.length ∧
    (RAWGService.fetch_games upstream year month pf).2.length ≤ 4 ∧
    (∀ i, i + 1 < (RAWGService.fetch_games upstream year month pf).2.length →
      stops_page upstream (RAWGService.build_date_range year month) (1 + i) =
        false) ∧
    ((RAWGService.fetch_games upstream year month pf).2.length < 4 →
      stops_page upstream (RAWGService.build_date_range year month)
        (RAWGService.fetch_games upstream year month pf).2.length = true) := by
  have hreq : (RAWGService.fetch_games upstream year month pf).2 =
      List.range' 1
        (pages_consumed upstream (RAWGService.build_date_range year month) 1 4) := by
    unfold RAWGService.fetch_games
    rw [fetch_go_reqs]
    simp
  have hk : (RAWGService.fetch_games upstream year month pf).2.length =
      pages_consumed upstream (RAWGService.build_date_range year month) 1 4 := by
    rw [hreq, List.length_range']
  refine ⟨?_, ?_, ?_, ?_, ?_⟩
  · rw [hk, hreq]
  · rw [hk]
    exact pages_consumed_pos upstream (RAWGService.build_date_range year month)
      4 1 (by omega)
  · rw [hk]
    exact pages_consumed_le upstream (RAWGService.build_date_range year month) 4 1
  · intro i hi
    rw [hk] at hi
    exact pages_consumed_not_stop upstream
      (RAWGService.build_date_range year month) 4 1 i hi
  · intro hlt
    rw [hk] at hlt ⊢
    have hpos := pages_consumed_pos upstream
      (RAWGService.build_date_range year month) 4 1 (by omega)
    have hlast := pages_consumed_last_stop upstream
      (RAWGService.build_date_range year month) 4 1 hlt
    have heq : 1 + pages_consumed upstream
        (RAWGService.build_date_range year month) 1 4 - 1 =
        pages_consumed upstream (RAWGService.build_date_range year month) 1 4 := by
      omega
    rw [heq] at hlast
    exact hlast

/-- C8 witness: the theorem applied to an upstream whose first page is
empty — exactly one page is requested. -/
theorem C8_pagination_bounded_witness :
    (RAWGService.fetch_games (fun _ _ => { results := [], next := false })
        2020 1 none).2 =
      List.range' 1
        (RAWGService.fetch_games (fun _ _ => { results := [], next := false })
            2020 1 none).2.length ∧
    (RAWGService.fetch_games (fun _ _ => { results := [], next := false })
        2020 1 none).2.length ≤ 4 :=
  ⟨(C8_pagination_bounded (fun _ _ => { results := [], next := false })
      2020 1 none).1,
   (C8_pagination_bounded (fun _ _ => { results := [], next := false })
      2020 1 none).2.2.1⟩

/-- C5 counterexample: a collection whose first record is unenriched but
whose second record is enriched makes the tabular export fail (the row
writer rejects keys outside the header taken from the first record)
instead of including the review/rating columns for every record. -/
theorem C5_counterexample :
    CSVExportStrategy_export
      [{ title := "A", platforms := ["PC"], release_date := none, genres := [] },
       { title := "B", platforms := [], release_date := none, genres := [],
         ai_review := some "ok", ai_rating := some 7 }] =
      .error "dict contains fields not in fieldnames" := rfl

/-- C5 amended: an unenriched record's field map has no review/rating
keys and an enriched record's has both; the tabular export includes the
review/rating columns for every record when the first record is enriched
(an enriched record after an unenriched first record makes it fail
instead); the structured-document export emits review/rating elements for
every record exactly when some record is enriched, with "N/A"
placeholders for records missing enrichment. -/
theorem C5_enrichment_columns (g : Game) (gs : List Game) (now : String)
    (games : List Game) (doc : XMLDoc) :
    (g.ai_review = none →
      g.to_dict.map Prod.fst = ["Title", "Platforms", "Release Date", "Genres"]) ∧
    (g.ai_review ≠ none →
      g.to_dict.map Prod.fst =
        ["Title", "Platforms", "Release Date", "Genres",
         "AI Review", "AI Rating"]) ∧
    (g.ai_review ≠ none →
      CSVExportStrategy_export (g :: gs) =
        .ok (["Title", "Platforms", "Release Date", "Genres",
              "AI Review", "AI Rating"],
             (g :: gs).map fun gm =>
               ["Title", "Platforms", "Release Date", "Genres",
                "AI Review", "AI Rating"].map fun f =>
                 (gm.to_dict.lookup f).getD "")) ∧
    (XMLExportStrategy_export now games = .ok doc →
      doc.includes_ai_reviews = games.any (fun gm => gm.ai_review.isSome) ∧
      doc.games = games.map (xml_game_elem doc.includes_ai_reviews) ∧
      ∀ e ∈ doc.games, e.ai.isSome = doc.includes_ai_reviews) ∧
    (g.ai_review = none → g.ai_rating = none →
      (xml_game_elem true g).ai = some ("N/A", "N/A")) := by
  refine ⟨(to_dict_keys g).1, (to_dict_keys g).2, ?_, ?_, ?_⟩
  · intro hg
    have hfn : g.to_dict.map Prod.fst =
        ["Title", "Platforms", "Release Date", "Genres",
         "AI Review", "AI Rating"] := (to_dict_keys g).2 hg
    have hall : ∀ gm ∈ g :: gs, ∀ kv ∈ gm.to_dict,
        ((["Title", "Platforms", "Release Date", "Genres",
           "AI Review", "AI Rating"] : List String).contains kv.1) = true :=
      fun gm _ kv hkv => to_dict_key_contains gm kv hkv
    simp only [CSVExportStrategy_export, hfn]
    rw [csv_rows_ok _ (g :: gs) hall]
    rfl
  · intro hx
    cases games with
    | nil => exact Except.noConfusion hx
    | cons g0 gs0 =>
        cases hx
        refine ⟨rfl, rfl, ?_⟩
        intro e he
        rcases List.mem_map.mp he with ⟨gm, _, rfl⟩
        cases hflag : (g0 :: gs0).any fun gm => gm.ai_review.isSome <;>
          simp [xml_game_elem, hflag]
  · intro hrev hrat
    simp [xml_game_elem, orNA, Game.ai_rating_str, hrev, hrat]

/-- C5 witness: exporting an enriched-first collection through the
tabular strategy includes the review/rating columns for every record. -/
theorem C5_enrichment_columns_witness :
    CSVExportStrategy_export
      [{ title := "B", platforms := [], release_date := none, genres := [],
         ai_review := some "ok", ai_rating := some 7 },
       { title := "A", platforms := ["PC"], release_date := none, genres := [] }] =
      .ok (["Title", "Platforms", "Release Date", "Genres",
            "AI Review", "AI Rating"],
           [["B", "", "N/A", "", "ok", "7/10"],
            ["A", "PC", "N/A", "", "", ""]]) := by
  have h := (C5_enrichment_columns
      { title := "B", platforms := [], release_date := none, genres := [],
        ai_review := some "ok", ai_rating := some 7 }
      [{ title := "A", platforms := ["PC"], release_date := none, genres := [] }]
      "" [] { export_date := "", total_games := 0,
              includes_ai_reviews := false, games := [] }).2.2.1
      (by decide)
  exact h.trans (by rfl)

/-- C2 witness: the theorem applied to the randint returning the lower
bound of each interval, over the interval [1999, 2005]. -/
theorem C2_random_search_witness :
    RAWGService.fetch_random_games (fun a _ => a)
        (fun _ _ => { results := [], next := false }) 1999 2005 none =
      ((RAWGService.fetch_games (fun _ _ => { results := [], next := false })
          1999 1 none).1, 1999, 1) :=
  (C2_random_search (fun a _ => a) (fun a _ h => ⟨Nat.le_refl a, h⟩)
    (fun _ _ => { results := [], next := false }) 1999 2005 (by omega) none
    (fun _ => none) false (fun _ => Except.error ())).1

end GamesSearch
